import Mathlib

/-!
# Verification of the go-lockable keyed-lock registry

Shallow embedding of the `lockable` package (file `lockable.go` of
MysteriousPotato/go-lockable).  The registry's bookkeeping state is the
contents of the map `locks : map[T]*versionedMutex`; the mutations every
operation performs under the registry mutex `locksMu` are modelled as pure
state transformers.  Calls to the underlying `sync.RWMutex` (made outside
the registry mutex in the source) are recorded as a list of `MuOp` events,
so that theorems can speak about *which* underlying lock operations an
entry point performs without modelling blocking itself.
-/

namespace Lockable

/-- The two counters of the Go struct `versionedMutex` (the embedded
`sync.RWMutex` is represented by the `MuOp` events the public operations
emit, not by a field). -/
structure versionedMutex where
  completedVersion : Int
  currentVersion : Int
deriving DecidableEq, Repr

/-- The bookkeeping state of `Lockable[T]`: the contents of the map
`locks map[T]*versionedMutex`.  The registry mutex `locksMu` only
serializes access and carries no data, so it has no counterpart here. -/
structure State (K : Type) where
  locks : K → Option versionedMutex

/-- Operations on the underlying `sync.RWMutex` of a per-key lock. -/
inductive MuOp where
  | lock
  | unlock
  | rlock
  | runlock
deriving DecidableEq, Repr

variable {K : Type} [DecidableEq K]

/-- Go map assignment `m[key] = v` (also models a mutation through the
stored pointer `*versionedMutex`, which is visible in the map). -/
def mapInsert (m : K → Option versionedMutex) (key : K) (v : versionedMutex) :
    K → Option versionedMutex :=
  fun k => if k = key then some v else m k

/-- Go `delete(m, key)`. -/
def mapDelete (m : K → Option versionedMutex) (key : K) :
    K → Option versionedMutex :=
  fun k => if k = key then none else m k

/-- `New` creates a ready-to-use Lockable instance: empty map. -/
def New : State K := ⟨fun _ => none⟩

/-- `tryCleanUp`: delete the entry if no other locks have been requested
for this key (`currentVersion == completedVersion`). -/
def tryCleanUp (l : State K) (key : K) (vMu : versionedMutex) : State K :=
  if vMu.currentVersion = vMu.completedVersion then ⟨mapDelete l.locks key⟩ else l

/-- `lockKey`: under the registry mutex, look the key up, insert a fresh
`versionedMutex` with both counters 0 if absent, increment
`currentVersion`, and return the (updated) per-key lock together with the
new registry state. -/
def lockKey (l : State K) (key : K) : versionedMutex × State K :=
  let vMu :=
    match l.locks key with
    | some v => v
    | none => { currentVersion := 0, completedVersion := 0 }
  let vMu2 := { vMu with currentVersion := vMu.currentVersion + 1 }
  (vMu2, ⟨mapInsert l.locks key vMu2⟩)

/-- `unlockKey`: under the registry mutex, look the key up; if absent
return `(nil, false)` (here `none`) leaving the state untouched; if
present increment `completedVersion`, run `tryCleanUp`, and return the
per-key lock. -/
def unlockKey (l : State K) (key : K) : Option versionedMutex × State K :=
  match l.locks key with
  | none => (none, l)
  | some vMu =>
    let vMu2 := { vMu with completedVersion := vMu.completedVersion + 1 }
    let l2 : State K := ⟨mapInsert l.locks key vMu2⟩
    (some vMu2, tryCleanUp l2 key vMu2)

/-- `LockKey`: `vMu := l.lockKey(key); vMu.Lock()`.  Returns the new
registry state and the underlying-lock operations performed. -/
def LockKey (l : State K) (key : K) : State K × List MuOp :=
  ((lockKey l key).2, [MuOp.lock])

/-- `UnlockKey`: `vMu, ok := l.unlockKey(key); if !ok { return };
vMu.Unlock()`. -/
def UnlockKey (l : State K) (key : K) : State K × List MuOp :=
  match unlockKey l key with
  | (none, l2) => (l2, [])
  | (some _, l2) => (l2, [MuOp.unlock])

/-- `RLockKey`: `vMu := l.lockKey(key); vMu.RLock()`. -/
def RLockKey (l : State K) (key : K) : State K × List MuOp :=
  ((lockKey l key).2, [MuOp.rlock])

/-- `RUnlockKey`: `vMu, ok := l.unlockKey(key); if !ok { return };
vMu.RUnlock()`. -/
def RUnlockKey (l : State K) (key : K) : State K × List MuOp :=
  match unlockKey l key with
  | (none, l2) => (l2, [])
  | (some _, l2) => (l2, [MuOp.runlock])

/-- Outcome of the Go callback `fn func() (any, error)`: a normal return
carrying the result and the (possibly nil) error, or a panic.  Go `defer`
runs the release on both exit paths. -/
inductive FnOutcome (α ε : Type) where
  | ret (res : α) (err : Option ε)
  | panicked (p : ε)
deriving DecidableEq, Repr

/-- `LockKeyDuring`: `l.LockKey(key); defer l.UnlockKey(key); return fn()`.
The deferred release runs on every exit path of `fn`, including a panic,
and the outcome of `fn` is propagated unchanged. -/
def LockKeyDuring (l : State K) (key : K) {α ε : Type}
    (fn : Unit → FnOutcome α ε) : FnOutcome α ε × State K :=
  let l1 := (LockKey l key).1
  let out := fn ()
  (out, (UnlockKey l1 key).1)

/-- `RLockKeyDuring`: `l.RLockKey(key); defer l.RUnlockKey(key);
return fn()`. -/
def RLockKeyDuring (l : State K) (key : K) {α ε : Type}
    (fn : Unit → FnOutcome α ε) : FnOutcome α ε × State K :=
  let l1 := (RLockKey l key).1
  let out := fn ()
  (out, (RUnlockKey l1 key).1)

/-- `IsLocked`: under the registry mutex,
`keyLock, ok := l.locks[key]; return ok && keyLock.completedVersion != keyLock.currentVersion`. -/
def IsLocked (l : State K) (key : K) : Bool :=
  match l.locks key with
  | none => false
  | some keyLock => keyLock.completedVersion != keyLock.currentVersion

/-- The registry bookkeeping invariant of the spec: every entry satisfies
`completed ≤ requested`, and no drained entry (`completed == requested`)
remains in the mapping. -/
def WellFormed (l : State K) : Prop :=
  ∀ k v, l.locks k = some v →
    v.completedVersion ≤ v.currentVersion ∧ v.completedVersion ≠ v.currentVersion

/-- A concrete reachable state over `Nat` keys: key 0 acquired twice with
no release yet (counters `completedVersion = 0`, `currentVersion = 2`). -/
def twoAcquires : State Nat := (LockKey (LockKey New 0).1 0).1

theorem unlockKey_absent (l : State K) (key : K) (h : l.locks key = none) :
    unlockKey l key = (none, l) := by
  simp [unlockKey, h]

theorem unlockKey_present (l : State K) (key : K) (v : versionedMutex)
    (h : l.locks key = some v) :
    unlockKey l key =
      (some { v with completedVersion := v.completedVersion + 1 },
       tryCleanUp ⟨mapInsert l.locks key { v with completedVersion := v.completedVersion + 1 }⟩
         key { v with completedVersion := v.completedVersion + 1 }) := by
  simp [unlockKey, h]

theorem UnlockKey_fst (l : State K) (key : K) :
    (UnlockKey l key).1 = (unlockKey l key).2 := by
  rcases hu : unlockKey l key with ⟨_ | _, l2⟩ <;> simp [UnlockKey, hu]

theorem RUnlockKey_fst (l : State K) (key : K) :
    (RUnlockKey l key).1 = (unlockKey l key).2 := by
  rcases hu : unlockKey l key with ⟨_ | _, l2⟩ <;> simp [RUnlockKey, hu]

theorem unlockKey_at_key (l : State K) (key : K) (v : versionedMutex)
    (h : l.locks key = some v) :
    (unlockKey l key).2.locks key =
      if v.currentVersion = v.completedVersion + 1 then none
      else some { v with completedVersion := v.completedVersion + 1 } := by
  rw [unlockKey_present l key v h]
  by_cases hc : v.currentVersion = v.completedVersion + 1
  · simp [tryCleanUp, hc, mapDelete]
  · simp [tryCleanUp, hc, mapInsert]

theorem unlockKey_frame (l : State K) (key k2 : K) (h : k2 ≠ key) :
    (unlockKey l key).2.locks k2 = l.locks k2 := by
  rcases hw : l.locks key with _ | w
  · simp [unlockKey, hw]
  · rw [unlockKey_present l key w hw]
    simp only [tryCleanUp]
    split <;> simp [mapDelete, mapInsert, h]

theorem lockKey_frame (l : State K) (key k2 : K) (h : k2 ≠ key) :
    (lockKey l key).2.locks k2 = l.locks k2 := by
  rcases hw : l.locks key with _ | w <;> simp [lockKey, hw, mapInsert, h]

theorem UnlockKey_state_absent (l : State K) (key : K) (h : l.locks key = none) :
    (UnlockKey l key).1 = l := by
  rw [UnlockKey_fst, unlockKey_absent l key h]

theorem RUnlockKey_state_absent (l : State K) (key : K) (h : l.locks key = none) :
    (RUnlockKey l key).1 = l := by
  rw [RUnlockKey_fst, unlockKey_absent l key h]

theorem UnlockKey_snd_absent (l : State K) (key : K) (h : l.locks key = none) :
    (UnlockKey l key).2 = [] := by
  simp [UnlockKey, unlockKey_absent l key h]

theorem UnlockKey_snd_present (l : State K) (key : K) (v : versionedMutex)
    (h : l.locks key = some v) :
    (UnlockKey l key).2 = [MuOp.unlock] := by
  rw [UnlockKey, unlockKey_present l key v h]

theorem RUnlockKey_snd_present (l : State K) (key : K) (v : versionedMutex)
    (h : l.locks key = some v) :
    (RUnlockKey l key).2 = [MuOp.runlock] := by
  rw [RUnlockKey, unlockKey_present l key v h]

/-- Claim C1: for every registry state and key that has an entry, a release
(UnlockKey or RUnlockKey) increments the entry's completed counter by
exactly 1; if that makes it equal to the requested counter the entry is
removed, so a draining release leaves no entry for the key. -/
theorem C1_release_updates_entry (l : State K) (key : K) (v : versionedMutex)
    (h : l.locks key = some v) :
    (v.completedVersion + 1 = v.currentVersion →
      (UnlockKey l key).1.locks key = none ∧
      (RUnlockKey l key).1.locks key = none) ∧
    (v.completedVersion + 1 ≠ v.currentVersion →
      (UnlockKey l key).1.locks key =
        some { v with completedVersion := v.completedVersion + 1 } ∧
      (RUnlockKey l key).1.locks key =
        some { v with completedVersion := v.completedVersion + 1 }) := by
  refine ⟨fun hd => ⟨?_, ?_⟩, fun hd => ⟨?_, ?_⟩⟩
  · rw [UnlockKey_fst, unlockKey_at_key l key v h, if_pos hd.symm]
  · rw [RUnlockKey_fst, unlockKey_at_key l key v h, if_pos hd.symm]
  · rw [UnlockKey_fst, unlockKey_at_key l key v h, if_neg (fun hc => hd hc.symm)]
  · rw [RUnlockKey_fst, unlockKey_at_key l key v h, if_neg (fun hc => hd hc.symm)]

/-- Witness for C1 at the concrete state reached by `LockKey New 0`
(entry `⟨0, 1⟩` for key 0): releasing drains, leaving no entry. -/
theorem C1_release_updates_entry_witness :
    (LockKey (New : State Nat) 0).1.locks 0 = some ⟨0, 1⟩ ∧
    ((0 : Int) + 1 = 1 ∧
      (UnlockKey (LockKey (New : State Nat) 0).1 0).1.locks 0 = none) :=
  ⟨by decide, by decide,
    ((C1_release_updates_entry (LockKey (New : State Nat) 0).1 0 ⟨0, 1⟩
      (by decide)).1 (by decide)).1⟩

/-- Claim C3: releasing a key with no entry is a no-op: it leaves the
registry state completely unchanged (and touches no underlying lock). -/
theorem C3_release_absent_noop (l : State K) (key : K) (h : l.locks key = none) :
    UnlockKey l key = (l, []) ∧ RUnlockKey l key = (l, []) := by
  constructor <;> simp [UnlockKey, RUnlockKey, unlockKey_absent l key h]

/-- Witness for C3: releasing key 0 on the fresh registry is a no-op. -/
theorem C3_release_absent_noop_witness :
    (New : State Nat).locks 0 = none ∧ UnlockKey (New : State Nat) 0 = (New, []) :=
  ⟨rfl, (C3_release_absent_noop (New : State Nat) 0 rfl).1⟩

/-- Claim C4: an acquire (`LockKey` or `RLockKey`) looks the key up; if
absent it inserts a fresh per-key lock with both counters 0; then it
increments `currentVersion` (requested) by exactly 1, and changes nothing
else in the registry. -/
theorem C4_acquire_bookkeeping (l : State K) (key : K) :
    (l.locks key = none →
      (LockKey l key).1.locks key = some ⟨0, 1⟩ ∧
      (RLockKey l key).1.locks key = some ⟨0, 1⟩) ∧
    (∀ v, l.locks key = some v →
      (LockKey l key).1.locks key = some { v with currentVersion := v.currentVersion + 1 } ∧
      (RLockKey l key).1.locks key = some { v with currentVersion := v.currentVersion + 1 }) ∧
    (∀ k2, k2 ≠ key →
      (LockKey l key).1.locks k2 = l.locks k2 ∧
      (RLockKey l key).1.locks k2 = l.locks k2) := by
  refine ⟨fun h => ?_, fun v h => ?_, fun k2 hk => ?_⟩
  · constructor <;> simp [LockKey, RLockKey, lockKey, h, mapInsert]
  · constructor <;> simp [LockKey, RLockKey, lockKey, h, mapInsert]
  · exact ⟨lockKey_frame l key k2 hk, lockKey_frame l key k2 hk⟩

/-- Witness for C4: acquiring key 0 on the fresh registry inserts the
entry `⟨0, 1⟩`. -/
theorem C4_acquire_bookkeeping_witness :
    (New : State Nat).locks 0 = none ∧
    (LockKey (New : State Nat) 0).1.locks 0 = some ⟨0, 1⟩ :=
  ⟨rfl, ((C4_acquire_bookkeeping (New : State Nat) 0).1 rfl).1⟩

/-- Claim C5: `IsLocked` returns true iff the mapping has an entry for the
key whose counters differ; it is false on absent keys; and the sequence
acquire, check, release, check yields true then false. -/
theorem C5_isLocked (l : State K) (key : K) :
    (IsLocked l key = true ↔
      ∃ v, l.locks key = some v ∧ v.completedVersion ≠ v.currentVersion) ∧
    (l.locks key = none → IsLocked l key = false) ∧
    (l.locks key = none →
      IsLocked (LockKey l key).1 key = true ∧
      IsLocked (UnlockKey (LockKey l key).1 key).1 key = false) := by
  refine ⟨?_, fun h => by simp [IsLocked, h], fun h => ⟨?_, ?_⟩⟩
  · rcases hv : l.locks key with _ | v <;> simp [IsLocked, hv]
  · have h1 : (LockKey l key).1.locks key = some ⟨0, 1⟩ := by
      simp [LockKey, lockKey, h, mapInsert]
    simp [IsLocked, h1]
  · have h1 : (LockKey l key).1.locks key = some ⟨0, 1⟩ := by
      simp [LockKey, lockKey, h, mapInsert]
    have h2 : (UnlockKey (LockKey l key).1 key).1.locks key = none := by
      rw [UnlockKey_fst, unlockKey_at_key _ key ⟨0, 1⟩ h1]
      simp
    simp [IsLocked, h2]

/-- Witness for C5: the scenario on the fresh registry with key 0. -/
theorem C5_isLocked_witness :
    (New : State Nat).locks 0 = none ∧
    (IsLocked (LockKey (New : State Nat) 0).1 0 = true ∧
     IsLocked (UnlockKey (LockKey (New : State Nat) 0).1 0).1 0 = false) :=
  ⟨rfl, ((C5_isLocked (New : State Nat) 0).2.2 rfl)⟩

omit [DecidableEq K] in
theorem wellFormed_New : WellFormed (New : State K) := by
  intro k v hv
  cases hv

theorem wellFormed_lockKey (l : State K) (key : K) (h : WellFormed l) :
    WellFormed (lockKey l key).2 := by
  intro k v hv
  by_cases hk : k = key
  · subst hk
    rcases hw : l.locks k with _ | w
    · simp [lockKey, hw, mapInsert] at hv
      subst hv
      constructor <;> simp
    · rcases h k w hw with ⟨hle, hne⟩
      simp [lockKey, hw, mapInsert] at hv
      subst hv
      refine ⟨by simpa using le_trans hle (by simp), ?_⟩
      simp only [versionedMutex.mk.injEq]
      intro hc
      omega
  · rw [lockKey_frame l key k hk] at hv
    exact h k v hv

theorem wellFormed_unlockKey (l : State K) (key : K) (h : WellFormed l) :
    WellFormed (unlockKey l key).2 := by
  intro k v hv
  by_cases hk : k = key
  · subst hk
    rcases hw : l.locks k with _ | w
    · rw [unlockKey_absent l k hw] at hv
      exact h k v hv
    · rcases h k w hw with ⟨hle, hne⟩
      rw [unlockKey_at_key l k w hw] at hv
      by_cases hc : w.currentVersion = w.completedVersion + 1
      · simp [hc] at hv
      · rw [if_neg hc] at hv
        injection hv with hv
        subst hv
        constructor <;> simp <;> omega
  · rw [unlockKey_frame l key k hk] at hv
    exact h k v hv

/-- Claim C2: from any well-formed state, every operation preserves
`completed ≤ requested` for all entries and leaves no drained entry
(`completed == requested`) in the mapping; the fresh registry is
well-formed, and `IsLocked` does not mutate the state at all. -/
theorem C2_invariant_preserved (l : State K) (key : K) (h : WellFormed l) :
    WellFormed (New : State K) ∧
    WellFormed (LockKey l key).1 ∧
    WellFormed (RLockKey l key).1 ∧
    WellFormed (UnlockKey l key).1 ∧
    WellFormed (RUnlockKey l key).1 ∧
    (∀ (α ε : Type) (fn : Unit → FnOutcome α ε),
      WellFormed (LockKeyDuring l key fn).2 ∧
      WellFormed (RLockKeyDuring l key fn).2) := by
  have hNew : WellFormed (New : State K) := wellFormed_New
  have hL : WellFormed (LockKey l key).1 := wellFormed_lockKey l key h
  have hU : WellFormed (UnlockKey l key).1 := by
    rw [UnlockKey_fst]
    exact wellFormed_unlockKey l key h
  have hRU : WellFormed (RUnlockKey l key).1 := by
    rw [RUnlockKey_fst]
    exact wellFormed_unlockKey l key h
  refine ⟨hNew, hL, hL, hU, hRU, fun α ε fn => ⟨?_, ?_⟩⟩
  · show WellFormed (UnlockKey (LockKey l key).1 key).1
    rw [UnlockKey_fst]
    exact wellFormed_unlockKey _ key hL
  · show WellFormed (RUnlockKey (RLockKey l key).1 key).1
    rw [RUnlockKey_fst]
    exact wellFormed_unlockKey _ key hL

/-- Witness for C2 at the fresh registry over `Nat` keys and key 0. -/
theorem C2_invariant_preserved_witness :
    WellFormed (New : State Nat) ∧ WellFormed (LockKey (New : State Nat) 0).1 :=
  ⟨wellFormed_New,
   (C2_invariant_preserved (New : State Nat) 0 wellFormed_New).2.1⟩

theorem RUnlockKey_snd_absent (l : State K) (key : K) (h : l.locks key = none) :
    (RUnlockKey l key).2 = [] := by
  simp [RUnlockKey, unlockKey_absent l key h]

theorem UnlockKey_pair_absent (l : State K) (key : K) (h : l.locks key = none) :
    UnlockKey l key = (l, []) := by
  simp [UnlockKey, unlockKey_absent l key h]

theorem LockKeyDuring_snd (l : State K) (key : K) {α ε : Type}
    (fn : Unit → FnOutcome α ε) :
    (LockKeyDuring l key fn).2 = (UnlockKey (LockKey l key).1 key).1 := rfl

theorem RLockKeyDuring_snd (l : State K) (key : K) {α ε : Type}
    (fn : Unit → FnOutcome α ε) :
    (RLockKeyDuring l key fn).2 = (RUnlockKey (RLockKey l key).1 key).1 := rfl

/-- Claim C6: the scoped variants acquire, run `fn`, release on every exit
path of `fn` (the deferred release runs also when `fn` panics, since the
outcome does not influence the release in the model), and propagate the
outcome unchanged; on an otherwise idle key the registry is left with no
entry — indeed pointwise unchanged. -/
theorem C6_scoped_variants (l : State K) (key : K) {α ε : Type}
    (fn : Unit → FnOutcome α ε) (h : l.locks key = none) :
    (LockKeyDuring l key fn).1 = fn () ∧
    (RLockKeyDuring l key fn).1 = fn () ∧
    (∀ k2, (LockKeyDuring l key fn).2.locks k2 = l.locks k2 ∧
           (RLockKeyDuring l key fn).2.locks k2 = l.locks k2) := by
  have h1 : (LockKey l key).1.locks key = some ⟨0, 1⟩ := by
    simp [LockKey, lockKey, h, mapInsert]
  have h2 : (UnlockKey (LockKey l key).1 key).1.locks key = none := by
    rw [UnlockKey_fst, unlockKey_at_key _ key ⟨0, 1⟩ h1]
    simp
  have h1r : (RLockKey l key).1.locks key = some ⟨0, 1⟩ := h1
  have h2r : (RUnlockKey (RLockKey l key).1 key).1.locks key = none := by
    rw [RUnlockKey_fst, unlockKey_at_key _ key ⟨0, 1⟩ h1r]
    simp
  refine ⟨rfl, rfl, fun k2 => ?_⟩
  by_cases hk : k2 = key
  · subst hk
    rw [LockKeyDuring_snd, RLockKeyDuring_snd, h2, h2r, h]
    exact ⟨rfl, rfl⟩
  · rw [LockKeyDuring_snd, RLockKeyDuring_snd, UnlockKey_fst, RUnlockKey_fst,
      unlockKey_frame _ key k2 hk, unlockKey_frame _ key k2 hk]
    exact ⟨lockKey_frame l key k2 hk, lockKey_frame l key k2 hk⟩

/-- Witness for C6 at the fresh registry, key 0, a body returning `(7, nil)`. -/
theorem C6_scoped_variants_witness :
    (New : State Nat).locks 0 = none ∧
    (LockKeyDuring (New : State Nat) 0 (fun _ => FnOutcome.ret (7 : Nat) (none : Option Nat))).1 =
      FnOutcome.ret 7 none :=
  ⟨rfl, (C6_scoped_variants (New : State Nat) 0
    (fun _ => FnOutcome.ret (7 : Nat) (none : Option Nat)) rfl).1⟩

/-- Claim C7 counterexample: from the reachable state in which key 0 has
been acquired twice and released never (entry `⟨0, 2⟩`), releasing twice
does not leave the same registry bookkeeping state as releasing once:
once keeps the entry as `⟨1, 2⟩`, twice drains and removes it.  So release
is not idempotent on every state. -/
theorem C7_release_not_idempotent_cex :
    (UnlockKey (UnlockKey twoAcquires 0).1 0).1 ≠ (UnlockKey twoAcquires 0).1 := by
  intro hEq
  have hpt : (UnlockKey (UnlockKey twoAcquires 0).1 0).1.locks 0 =
      (UnlockKey twoAcquires 0).1.locks 0 := by rw [hEq]
  have h1 : (UnlockKey (UnlockKey twoAcquires 0).1 0).1.locks 0 = none := by decide
  have h2 : (UnlockKey twoAcquires 0).1.locks 0 = some ⟨1, 2⟩ := by decide
  rw [h1, h2] at hpt
  cases hpt

/-- Claim C7 amended: release on an absent key, or on a key with exactly
one outstanding acquisition (`currentVersion = completedVersion + 1`, so
the first release drains it), is idempotent: applying release twice leaves
the same registry bookkeeping state as applying it once.  With two or more
outstanding acquisitions the two differ (see the counterexample). -/
theorem C7_release_idempotent_amended (l : State K) (key : K)
    (h : l.locks key = none ∨
      ∃ v, l.locks key = some v ∧ v.currentVersion = v.completedVersion + 1) :
    (UnlockKey (UnlockKey l key).1 key).1 = (UnlockKey l key).1 ∧
    (RUnlockKey (RUnlockKey l key).1 key).1 = (RUnlockKey l key).1 := by
  rcases h with h | ⟨v, hv, hc⟩
  · have h1 : (UnlockKey l key).1 = l := UnlockKey_state_absent l key h
    have h1r : (RUnlockKey l key).1 = l := RUnlockKey_state_absent l key h
    rw [h1, h1r, UnlockKey_state_absent l key h, RUnlockKey_state_absent l key h]
    exact ⟨rfl, rfl⟩
  · have h1 : (UnlockKey l key).1.locks key = none := by
      rw [UnlockKey_fst, unlockKey_at_key l key v hv, if_pos hc]
    have h1r : (RUnlockKey l key).1.locks key = none := by
      rw [RUnlockKey_fst, unlockKey_at_key l key v hv, if_pos hc]
    exact ⟨UnlockKey_state_absent _ key h1, RUnlockKey_state_absent _ key h1r⟩

/-- Witness for C7 amended: key 0 on the fresh registry (absent case). -/
theorem C7_release_idempotent_amended_witness :
    (New : State Nat).locks 0 = none ∧
    (UnlockKey (UnlockKey (New : State Nat) 0).1 0).1 = (UnlockKey (New : State Nat) 0).1 :=
  ⟨rfl, (C7_release_idempotent_amended (New : State Nat) 0 (Or.inl rfl)).1⟩

/-- Claim C8: `UnlockKey` and `RUnlockKey` perform identical registry
bookkeeping — the resulting state is equal for every state and key — and
differ only in the underlying lock operation they invoke (`Unlock` versus
`RUnlock`) when an entry is present, neither invoking anything when the
key is absent. -/
theorem C8_release_same_bookkeeping (l : State K) (key : K) :
    (UnlockKey l key).1 = (RUnlockKey l key).1 ∧
    (l.locks key = none →
      (UnlockKey l key).2 = [] ∧ (RUnlockKey l key).2 = []) ∧
    (∀ v, l.locks key = some v →
      (UnlockKey l key).2 = [MuOp.unlock] ∧ (RUnlockKey l key).2 = [MuOp.runlock]) := by
  refine ⟨by rw [UnlockKey_fst, RUnlockKey_fst], fun h => ?_, fun v h => ?_⟩
  · exact ⟨UnlockKey_snd_absent l key h, RUnlockKey_snd_absent l key h⟩
  · exact ⟨UnlockKey_snd_present l key v h, RUnlockKey_snd_present l key v h⟩

/-- Witness for C8 at the state with one outstanding acquisition of key 0:
both entry points drain it and emit their own mode of release. -/
theorem C8_release_same_bookkeeping_witness :
    (LockKey (New : State Nat) 0).1.locks 0 = some ⟨0, 1⟩ ∧
    ((UnlockKey (LockKey (New : State Nat) 0).1 0).2 = [MuOp.unlock] ∧
     (RUnlockKey (LockKey (New : State Nat) 0).1 0).2 = [MuOp.runlock]) :=
  ⟨by decide,
   (C8_release_same_bookkeeping (LockKey (New : State Nat) 0).1 0).2.2 ⟨0, 1⟩ (by decide)⟩

/-- Claim C9: operations on one key never touch another key's entry: for
distinct keys, an acquire, release, or scoped call on the first leaves the
second's mapping entry (presence and counters) unchanged; `IsLocked`
performs no mutation at all in the source. -/
theorem C9_distinct_keys_untouched (l : State K) (k1 k2 : K) (h : k1 ≠ k2) :
    (LockKey l k1).1.locks k2 = l.locks k2 ∧
    (RLockKey l k1).1.locks k2 = l.locks k2 ∧
    (UnlockKey l k1).1.locks k2 = l.locks k2 ∧
    (RUnlockKey l k1).1.locks k2 = l.locks k2 ∧
    (∀ (α ε : Type) (fn : Unit → FnOutcome α ε),
      (LockKeyDuring l k1 fn).2.locks k2 = l.locks k2 ∧
      (RLockKeyDuring l k1 fn).2.locks k2 = l.locks k2) := by
  have hf : k2 ≠ k1 := Ne.symm h
  have hL : (lockKey l k1).2.locks k2 = l.locks k2 := lockKey_frame l k1 k2 hf
  refine ⟨hL, hL, ?_, ?_, fun α ε fn => ⟨?_, ?_⟩⟩
  · rw [UnlockKey_fst]
    exact unlockKey_frame l k1 k2 hf
  · rw [RUnlockKey_fst]
    exact unlockKey_frame l k1 k2 hf
  · rw [LockKeyDuring_snd, UnlockKey_fst, unlockKey_frame _ k1 k2 hf]
    exact hL
  · rw [RLockKeyDuring_snd, RUnlockKey_fst, unlockKey_frame _ k1 k2 hf]
    exact hL

/-- Witness for C9: locking key 0 leaves key 1 absent. -/
theorem C9_distinct_keys_untouched_witness :
    (0 : Nat) ≠ 1 ∧ (LockKey (New : State Nat) 0).1.locks 1 = (New : State Nat).locks 1 :=
  ⟨by decide, (C9_distinct_keys_untouched (New : State Nat) 0 1 (by decide)).1⟩

/-- Claim C10: after a drain removes the entry, a further release never
reaches the underlying lock.  In `LockKey; UnlockKey; UnlockKey` on an
idle key, the second `UnlockKey` emits no underlying operation and changes
nothing; and after two acquires and two (over-)releases drain the entry,
a remaining holder's release is a silent no-op that never unlocks the
underlying lock. -/
theorem C10_release_after_drain_silent (l : State K) (key : K)
    (h : l.locks key = none) :
    ((UnlockKey (LockKey l key).1 key).2 = [MuOp.unlock] ∧
     UnlockKey (UnlockKey (LockKey l key).1 key).1 key =
       ((UnlockKey (LockKey l key).1 key).1, [])) ∧
    ((UnlockKey (UnlockKey (LockKey (LockKey l key).1 key).1 key).1 key).1.locks key = none ∧
     UnlockKey (UnlockKey (UnlockKey (LockKey (LockKey l key).1 key).1 key).1 key).1 key =
       ((UnlockKey (UnlockKey (LockKey (LockKey l key).1 key).1 key).1 key).1, [])) := by
  have hs1 : (LockKey l key).1.locks key = some ⟨0, 1⟩ := by
    simp [LockKey, lockKey, h, mapInsert]
  have hs2 : (UnlockKey (LockKey l key).1 key).1.locks key = none := by
    rw [UnlockKey_fst, unlockKey_at_key _ key ⟨0, 1⟩ hs1]
    simp
  have hm2 : (LockKey (LockKey l key).1 key).1.locks key = some ⟨0, 2⟩ := by
    simp [LockKey, lockKey, h, mapInsert]
  have hw1 : (UnlockKey (LockKey (LockKey l key).1 key).1 key).1.locks key = some ⟨1, 2⟩ := by
    rw [UnlockKey_fst, unlockKey_at_key _ key ⟨0, 2⟩ hm2]
    norm_num
  have hw2 : (UnlockKey (UnlockKey (LockKey (LockKey l key).1 key).1 key).1 key).1.locks key
      = none := by
    rw [UnlockKey_fst, unlockKey_at_key _ key ⟨1, 2⟩ hw1]
    norm_num
  exact ⟨⟨UnlockKey_snd_present _ key ⟨0, 1⟩ hs1, UnlockKey_pair_absent _ key hs2⟩,
         ⟨hw2, UnlockKey_pair_absent _ key hw2⟩⟩

/-- Witness for C10 on the fresh registry with key 0. -/
theorem C10_release_after_drain_silent_witness :
    (New : State Nat).locks 0 = none ∧
    UnlockKey (UnlockKey (LockKey (New : State Nat) 0).1 0).1 0 =
      ((UnlockKey (LockKey (New : State Nat) 0).1 0).1, []) :=
  ⟨rfl, (C10_release_after_drain_silent (New : State Nat) 0 rfl).1.2⟩

end Lockable
